import Mathlib

/-!
Shallow embedding of
`src/jupyterlab-amphi/packages/pipeline-components-manager/src/BrowseFileDialog.tsx`
from the amphi-etl repository.

JavaScript strings that the code inspects or rewrites character by
character (paths, class names, file names) are embedded as `List Char`;
strings used only for equality tests (event types, item types, button
labels) stay `String`.  Optional (possibly `undefined`) string fields
become `Option (List Char)` and JavaScript truthiness of such a field is
the `truthy` predicate below (absent or empty is falsy).

The host-provided widgets (DirListing, BreadCrumbs, Dialog) are not part
of the repository; their observable interactions are modelled as explicit
inputs (the list of breadcrumb DOM elements, the item resolved by
`modelForClick`, whether the accept button is in the DOM) and explicit
outputs (a `HandleResult` record of the effects `handleEvent` performs).
-/

namespace BrowseFileDialogModel

/-- JS truthiness of an optional string: `undefined` and `''` are falsy. -/
def truthy : Option (List Char) → Bool
  | none => false
  | some s => !s.isEmpty

/-- Embedding of JS `String.prototype.replace` with a plain-string pattern:
it replaces only the first occurrence of `pat` (and the whole string is
returned unchanged when `pat` does not occur). -/
def replaceFirst (pat repl : List Char) : List Char → List Char
  | [] => if pat = [] then repl else []
  | c :: rest =>
    if pat.isPrefixOf (c :: rest) then repl ++ (c :: rest).drop pat.length
    else c :: replaceFirst pat repl rest

/-- Embedding of JS `String.prototype.trim`: whitespace is stripped from
both ends. -/
def jsTrim (s : List Char) : List Char :=
  ((s.dropWhile Char.isWhitespace).reverse.dropWhile Char.isWhitespace).reverse

/-- The CSS class `amphi-BreadCrumbs-disabled` used by the breadcrumbs
widget. -/
def disabledClass : List Char := "amphi-BreadCrumbs-disabled".toList

/-- One breadcrumb DOM element (`span[title]`): its `title` attribute and
its `className` string. -/
structure Crumb where
  title : List Char
  className : List Char
deriving Repr, DecidableEq

/-- The body of the `breadcrumbs.forEach` callback in
`BrowseFileDialogBreadcrumbs.onUpdateRequest`: a crumb whose title starts
with `rootPath` has the disabled class removed (first occurrence, then
`trim`), any other crumb gets the class appended unless its `className`
already contains it. -/
def updateCrumb (rootPath : List Char) (crumb : Crumb) : Crumb :=
  if rootPath.isPrefixOf crumb.title then
    { crumb with className := jsTrim (replaceFirst disabledClass [] crumb.className) }
  else if !(decide (disabledClass <:+: crumb.className)) then
    { crumb with className := crumb.className ++ (" amphi-BreadCrumbs-disabled".toList) }
  else crumb

/-- `BrowseFileDialogBreadcrumbs.onUpdateRequest` after the call to the
superclass: when `localPath` is truthy, `rootPath` is truthy and
`localPath` starts with `rootPath`, every queried crumb is updated by
`updateCrumb`; otherwise the crumbs are left alone. -/
def onUpdateRequest (rootPath : Option (List Char)) (localPath : List Char)
    (crumbs : List Crumb) : List Crumb :=
  if !localPath.isEmpty && truthy rootPath
      && (rootPath.getD []).isPrefixOf localPath then
    crumbs.map (updateCrumb (rootPath.getD []))
  else crumbs

/-- An entry of the directory listing (a Contents model): its `type` field
and its `path`. -/
structure ListItem where
  type_ : String
  path : List Char
deriving Repr, DecidableEq

/-- A DOM event as `handleEvent` observes it: its `type`, and — when it is
a `MouseEvent` or `KeyboardEvent` — its `shiftKey`/`metaKey` flags.  For a
mouse event, `clickedItem` is the item that the host widget's
`modelForClick` resolves for it (`none` when no item was hit). -/
inductive Event where
  | mouse (type_ : String) (shiftKey metaKey : Bool) (clickedItem : Option ListItem)
  | keyboard (type_ : String) (shiftKey metaKey : Bool)
  | other (type_ : String)
deriving Repr, DecidableEq

/-- The event's `type` property. -/
def Event.eventType : Event → String
  | .mouse t _ _ _ => t
  | .keyboard t _ _ => t
  | .other t => t

/-- The `modifierKey` local of `handleEvent`: `shiftKey || metaKey` for a
`MouseEvent` or a `KeyboardEvent`, `false` for any other event. -/
def Event.modifierKey : Event → Bool
  | .mouse _ s m _ => s || m
  | .keyboard _ s m => s || m
  | .other _ => false

/-- `DirListing.modelForClick` applied to the event (host-provided; the
resolved item is carried on the mouse event in this model). -/
def Event.clickedItemOf : Event → Option ListItem
  | .mouse _ _ _ item => item
  | .keyboard _ _ _ => none
  | .other _ => none

/-- The optional chaining `clickedItem?.type`. -/
def clickedItemType : Option ListItem → Option String
  | some item => some item.type_
  | none => none

/-- The observable effects of one `BrowseFileDialog.handleEvent` call:
whether the event was forwarded to the saved original
`DirListing.handleEvent`, whether `preventDefault` / `stopPropagation`
were called on it, and whether the dialog's accept button was clicked. -/
structure HandleResult where
  forwarded : Bool
  preventedDefault : Bool
  stoppedPropagation : Bool
  clickedAcceptButton : Bool
deriving Repr, DecidableEq

/-- The event is passed to the original handler and nothing else happens. -/
def forwardedResult : HandleResult :=
  { forwarded := true, preventedDefault := false, stoppedPropagation := false
    clickedAcceptButton := false }

/-- The event is dropped: no forwarding and no other effect. -/
def droppedResult : HandleResult :=
  { forwarded := false, preventedDefault := false, stoppedPropagation := false
    clickedAcceptButton := false }

/-- `BrowseFileDialog.handleEvent`.  `multiselect` and
`acceptFileOnDblClick` are the dialog's fields; `okButtonPresent` states
whether `document.querySelector` finds the accept button of the open
dialog. -/
def handleEvent (multiselect acceptFileOnDblClick okButtonPresent : Bool)
    (event : Event) : HandleResult :=
  let modifierKey := event.modifierKey
  let t := event.eventType
  if t = "keydown" ∨ t = "keyup" ∨ t = "mousedown" ∨ t = "mouseup" ∨ t = "click" then
    if multiselect || !modifierKey then forwardedResult else droppedResult
  else if t = "dblclick" then
    let clickedItem := event.clickedItemOf
    if clickedItemType clickedItem = some "directory" then forwardedResult
    else
      { forwarded := false, preventedDefault := true, stoppedPropagation := true
        clickedAcceptButton := acceptFileOnDblClick && okButtonPresent }
  else forwardedResult

/-- The loop body of `BrowseFileDialog.getValue`: iterate over the selected
items, pushing an item onto `selected` when `includeDir || item.type !==
'directory'`. -/
def getValueLoop (includeDir : Bool) : List ListItem → List ListItem → List ListItem
  | acc, [] => acc
  | acc, item :: rest =>
    if includeDir || item.type_ != "directory" then
      getValueLoop includeDir (acc ++ [item]) rest
    else getValueLoop includeDir acc rest

/-- `BrowseFileDialog.getValue`, as a function of the dialog's `includeDir`
field and the items currently selected in the directory listing. -/
def getValue (includeDir : Bool) (selectedItems : List ListItem) : List ListItem :=
  getValueLoop includeDir [] selectedItems

/-- The navigation performed by `BrowseFileDialog.init`: the path passed to
`model.cd`, or `none` when no `cd` happens. -/
def initNavigation (startPath rootPath : Option (List Char)) : Option (List Char) :=
  if truthy startPath then
    if !truthy rootPath || (rootPath.getD []).isPrefixOf (startPath.getD []) then
      some (startPath.getD [])
    else none
  else if truthy rootPath then some (rootPath.getD [])
  else none

/-- A Contents model as the filter functions see it: its `type` and its
`name`. -/
structure FileModel where
  type_ : String
  name : List Char
deriving Repr, DecidableEq

/-- Embedding of JS `String.prototype.split` with a single-character
separator (it always yields at least one piece; splitting the empty string
yields `[[]]`). -/
def splitOnChar (sep : Char) : List Char → List (List Char)
  | [] => [[]]
  | c :: rest =>
    let r := splitOnChar sep rest
    if c = sep then [] :: r
    else
      match r with
      | [] => [[c]]
      | h :: t => (c :: h) :: t

/-- The file extension computed inside the extensions filter of
`BrowseFileDialog.init`: a dot followed by the lowercased last piece of
`name.split('.')`. -/
def fileExtensionOf (name : List Char) : List Char :=
  '.' :: ((splitOnChar '.' name).getLastD []).map Char.toLower

/-- The filter that `BrowseFileDialog.init` builds when `options.extensions`
is non-empty: directories always pass, any other model passes exactly when
its computed extension is one of `extensions`. -/
def extensionsFilter (extensions : List (List Char)) (model : FileModel) : Bool :=
  if model.type_ = "directory" then true
  else extensions.contains (fileExtensionOf model.name)

/-- The truthiness test `options.extensions && options.extensions.length > 0`. -/
def extensionsTruthy : Option (List (List Char)) → Bool
  | some exts => decide (exts.length > 0)
  | none => false

/-- The options record handed to `BrowseFileDialog.init` (fields absent on
the JS object are `none`). -/
structure InitOptions where
  extensions : Option (List (List Char))
  filter : Option (FileModel → Bool)
  startPath : Option (List Char)
  rootPath : Option (List Char)

/-- The `filterFunction` selected by `BrowseFileDialog.init`: the
extensions filter when `extensions` is non-empty, otherwise
`options.filter || (() => true)`. -/
def initFilterFunction (o : InitOptions) : FileModel → Bool :=
  if extensionsTruthy o.extensions then extensionsFilter (o.extensions.getD [])
  else
    match o.filter with
    | some f => f
    | none => fun _ => true

/-- The `acceptFileOnDblClick` value that `showBrowseFileDialog` passes to
`init`: the option's own value when the property is present on the options
object, `true` when it is absent. -/
def effectiveAcceptFileOnDblClick : Option Bool → Bool
  | some b => b
  | none => true

/-- The result a launched dialog resolves with: whether the pressed button
has `accept` set, and the value produced by `getValue`. -/
structure DialogResult where
  accept : Bool
  value : List ListItem
deriving Repr, DecidableEq

/-- The `relativeToPath` local of the `.then` callback in
`showBrowseFileDialog`: `rootPath` with a slash appended unless it already
ends in one. -/
def relativeToPathOf (rp : List Char) : List Char :=
  if (['/'] : List Char).isSuffixOf rp then rp else rp ++ ['/']

/-- The `.then` callback of `dialog.launch()` in `showBrowseFileDialog`
(apart from the body-class bookkeeping): when `rootPath` is truthy, the
accept button was pressed and the selection is non-empty, the first
occurrence of `relativeToPath` is removed from every returned item's path;
otherwise the result is returned untouched. -/
def rewriteResult (rootPath : Option (List Char)) (result : DialogResult) : DialogResult :=
  if truthy rootPath && result.accept && !result.value.isEmpty then
    let relativeToPath := relativeToPathOf (rootPath.getD [])
    { result with
        value := result.value.map
          (fun v => { v with path := replaceFirst relativeToPath [] v.path }) }
  else result

/-- A button of the modal dialog: its `accept` flag and its label.
`Dialog.cancelButton()` and `Dialog.okButton({label})` are host-provided;
modelled from their documented defaults (cancel: non-accepting, labelled
`Cancel`; ok: accepting). -/
structure DialogButton where
  accept : Bool
  label : String
deriving Repr, DecidableEq

/-- `Dialog.cancelButton()`. -/
def cancelButton : DialogButton := { accept := false, label := "Cancel" }

/-- `Dialog.okButton({ label })`. -/
def okButton (label : String) : DialogButton := { accept := true, label := label }

/-- The configuration of the `Dialog` constructed by
`showBrowseFileDialog`. -/
structure DialogSpec where
  title : String
  buttons : List DialogButton
deriving Repr, DecidableEq

/-- The dialog `showBrowseFileDialog` constructs and launches. -/
def showBrowseFileDialogSpec : DialogSpec :=
  { title := "Select a file", buttons := [cancelButton, okButton "Select"] }

/-- The disabled class occurs at most once in a `className` string: after
removing one occurrence (as the removal branch of `updateCrumb` does),
none is left.  Every class string this code produces satisfies this, since
the add branch only fires when the class is absent. -/
def disabledAtMostOnce (className : List Char) : Prop :=
  ¬ disabledClass <:+: replaceFirst disabledClass [] className

instance decidableDisabledAtMostOnce (s : List Char) : Decidable (disabledAtMostOnce s) :=
  inferInstanceAs (Decidable (¬ disabledClass <:+: replaceFirst disabledClass [] s))

/-- `jsTrim` only strips characters from the ends: its result is a
contiguous part of its argument. -/
theorem jsTrim_part (s : List Char) : jsTrim s <:+: s := by
  unfold jsTrim
  have h1 : s.dropWhile Char.isWhitespace <:+ s := List.dropWhile_suffix _
  obtain ⟨a, ha⟩ :=
    (List.dropWhile_suffix (l := (s.dropWhile Char.isWhitespace).reverse) Char.isWhitespace)
  have h2 : ((s.dropWhile Char.isWhitespace).reverse.dropWhile Char.isWhitespace).reverse
      <+: s.dropWhile Char.isWhitespace := by
    refine ⟨a.reverse, ?_⟩
    have := congrArg List.reverse ha
    simpa [List.reverse_append] using this
  exact h2.isInfix.trans h1.isInfix

/-- When the pattern does not occur in the string, JS `replace` returns
the string unchanged. -/
theorem replaceFirst_no_occurrence (pat repl s : List Char) (h : ¬ pat <:+: s) :
    replaceFirst pat repl s = s := by
  induction s with
  | nil =>
    have hpat : ¬ pat = [] := by
      rintro rfl
      exact h List.nil_infix
    simp [replaceFirst, hpat]
  | cons c rest ih =>
    have hp : pat.isPrefixOf (c :: rest) = false := by
      rw [← Bool.not_eq_true]
      intro hp
      exact h ( List.isPrefixOf_iff_prefix.mp hp).isInfix
    have hrest : ¬ pat <:+: rest := fun hi => h (List.infix_cons hi)
    simp [replaceFirst, hp, ih hrest]

/-- When the pattern occurs, JS `replace` splits the string around the
first (leftmost) occurrence and substitutes the replacement there. -/
theorem replaceFirst_first_occurrence (pat repl s : List Char) (h : pat <:+: s) :
    ∃ a b, a ++ pat ++ b = s ∧ replaceFirst pat repl s = a ++ repl ++ b
      ∧ ∀ a' b', a' ++ pat ++ b' = s → a.length ≤ a'.length := by
  induction s with
  | nil =>
    have hpat : pat = [] := List.infix_nil.mp h
    subst hpat
    exact ⟨[], [], by simp, by simp [replaceFirst], fun a' b' _ => Nat.zero_le _⟩
  | cons c rest ih =>
    by_cases hp : pat.isPrefixOf (c :: rest) = true
    · have hpre : pat <+: c :: rest := List.isPrefixOf_iff_prefix.mp hp
      obtain ⟨b, hb⟩ := hpre
      refine ⟨[], b, by simpa using hb, ?_, fun a' b' _ => Nat.zero_le _⟩
      simp only [replaceFirst, hp, if_pos]
      rw [← hb, List.drop_left]
      simp
    · have hp' : pat.isPrefixOf (c :: rest) = false := by
        rw [← Bool.not_eq_true]
        exact hp
      have hpre : ¬ pat <+: c :: rest := fun hq =>
        hp ( List.isPrefixOf_iff_prefix.mpr hq)
      have hrest : pat <:+: rest := by
        obtain ⟨x, y, hxy⟩ := h
        cases x with
        | nil => exact absurd ⟨y, by simpa using hxy⟩ hpre
        | cons d x' =>
          refine ⟨x', y, ?_⟩
          simpa using congrArg List.tail hxy
      obtain ⟨a, b, heq, hres, hmin⟩ := ih hrest
      refine ⟨c :: a, b, by simpa using congrArg (List.cons c) heq, ?_, ?_⟩
      · simp only [replaceFirst, hp', Bool.false_eq_true, if_false, hres]
        simp
      · rintro a' b' ha'
        cases a' with
        | nil => exact absurd ⟨b', by simpa using ha'⟩ hpre
        | cons d a'' =>
          have ht : a'' ++ pat ++ b' = rest := by
            simpa using congrArg List.tail ha'
          simpa using Nat.succ_le_succ (hmin a'' b' ht)

/-- `updateCrumb` never changes a crumb's title. -/
theorem updateCrumb_title (rootPath : List Char) (crumb : Crumb) :
    (updateCrumb rootPath crumb).title = crumb.title := by
  unfold updateCrumb
  split
  · rfl
  · split <;> rfl

/-- C1: when the dialog was constructed with a (truthy) `rootPath` and the
model's current local path starts with it, then after `onUpdateRequest`
every breadcrumb whose title starts with `rootPath` does not carry the
`amphi-BreadCrumbs-disabled` class, and every breadcrumb whose title does
not start with `rootPath` carries it (for class strings listing the
disabled class at most once, which is invariant under this code). -/
theorem C1_breadcrumbs_disabled_above_root
    (rootPath localPath : List Char) (crumbs : List Crumb)
    (hroot : rootPath ≠ [])
    (hpre : rootPath <+: localPath)
    (honce : ∀ c ∈ crumbs, disabledAtMostOnce c.className) :
    ∀ c ∈ onUpdateRequest (some rootPath) localPath crumbs,
      (rootPath <+: c.title → ¬ disabledClass <:+: c.className)
      ∧ (¬ rootPath <+: c.title → disabledClass <:+: c.className) := by
  intro c hc
  have hlp : localPath ≠ [] := by
    rintro rfl
    exact hroot (List.prefix_nil.mp hpre)
  have hguard : onUpdateRequest (some rootPath) localPath crumbs
      = crumbs.map (updateCrumb rootPath) := by
    have h1 : localPath.isEmpty = false := by
      simpa [List.isEmpty_iff] using hlp
    have h2 : rootPath.isEmpty = false := by
      simpa [List.isEmpty_iff] using hroot
    have h3 : rootPath.isPrefixOf localPath = true := List.isPrefixOf_iff_prefix.mpr hpre
    simp [onUpdateRequest, truthy, h1, h2, h3]
  rw [hguard] at hc
  obtain ⟨c₀, hc₀, rfl⟩ := List.mem_map.mp hc
  constructor
  · intro hti
    rw [updateCrumb_title] at hti
    have hb : (updateCrumb rootPath c₀).className
        = jsTrim (replaceFirst disabledClass [] c₀.className) := by
      simp [updateCrumb, List.isPrefixOf_iff_prefix.mpr hti]
    rw [hb]
    intro hinf
    have honce₀ := honce c₀ hc₀
    unfold disabledAtMostOnce at honce₀
    exact honce₀ (hinf.trans (jsTrim_part _))
  · intro hti
    rw [updateCrumb_title] at hti
    have hb : rootPath.isPrefixOf c₀.title = false := by
      rw [← Bool.not_eq_true]
      intro h
      exact hti (List.isPrefixOf_iff_prefix.mp h)
    by_cases hhas : disabledClass <:+: c₀.className
    · have heq : updateCrumb rootPath c₀ = c₀ := by
        simp [updateCrumb, hb, hhas]
      rw [heq]
      exact hhas
    · have heq : (updateCrumb rootPath c₀).className
          = c₀.className ++ (" amphi-BreadCrumbs-disabled".toList) := by
        simp [updateCrumb, hb, hhas]
      rw [heq]
      have hsp : (" amphi-BreadCrumbs-disabled".toList) = ' ' :: disabledClass := by decide
      refine ⟨c₀.className ++ [' '], [], ?_⟩
      rw [hsp]
      simp

/-- Witness for C1 at a concrete root, local path and crumb list. -/
theorem C1_witness :
    (("/root".toList : List Char) ≠ []
      ∧ "/root".toList <+: "/root/sub".toList
      ∧ (∀ c ∈ [Crumb.mk "/".toList [], Crumb.mk "/root/sub".toList []],
          disabledAtMostOnce c.className))
    ∧ (∀ c ∈ onUpdateRequest (some "/root".toList) "/root/sub".toList
          [Crumb.mk "/".toList [], Crumb.mk "/root/sub".toList []],
        ("/root".toList <+: c.title → ¬ disabledClass <:+: c.className)
        ∧ (¬ "/root".toList <+: c.title → disabledClass <:+: c.className)) :=
  ⟨⟨by decide, by decide, by decide⟩,
    C1_breadcrumbs_disabled_above_root "/root".toList "/root/sub".toList
      [Crumb.mk "/".toList [], Crumb.mk "/root/sub".toList []]
      (by decide) (by decide) (by decide)⟩

/-- The accumulator loop of `getValue` computes a `filter` appended to the
accumulator. -/
theorem getValueLoop_eq (d : Bool) (l : List ListItem) :
    ∀ acc, getValueLoop d acc l
      = acc ++ l.filter (fun item => d || item.type_ != "directory") := by
  induction l with
  | nil =>
    intro acc
    simp [getValueLoop]
  | cons x xs ih =>
    intro acc
    cases hcond : (d || x.type_ != "directory") <;>
      simp [getValueLoop, hcond, ih, List.filter_cons]

/-- C4: `getValue` returns exactly the currently selected items, keeping
every non-directory unconditionally and keeping a directory exactly when
`includeDir` is set. -/
theorem C4_getValue_members (includeDir : Bool) (selectedItems : List ListItem)
    (item : ListItem) :
    item ∈ getValue includeDir selectedItems
      ↔ item ∈ selectedItems ∧ (item.type_ ≠ "directory" ∨ includeDir = true) := by
  rw [getValue, getValueLoop_eq]
  simp only [List.nil_append, List.mem_filter, Bool.or_eq_true, bne_iff_ne, ne_eq]
  tauto

/-- C3: for the five intercepted interaction event types, the event is
forwarded to the saved original handler exactly when `multiselect` is set
or no shift/meta modifier is pressed, and is dropped (with no other
effect) otherwise. -/
theorem C3_modifier_gate (multiselect acceptFileOnDblClick okButtonPresent : Bool)
    (e : Event)
    (ht : e.eventType = "keydown" ∨ e.eventType = "keyup" ∨ e.eventType = "mousedown"
      ∨ e.eventType = "mouseup" ∨ e.eventType = "click") :
    handleEvent multiselect acceptFileOnDblClick okButtonPresent e
      = if multiselect || !e.modifierKey then forwardedResult else droppedResult := by
  rcases ht with h | h | h | h | h <;> simp [handleEvent, h]

/-- Witness for C3: a shift-click with `multiselect` off is dropped. -/
theorem C3_witness :
    ((Event.mouse "click" true false none).eventType = "keydown"
      ∨ (Event.mouse "click" true false none).eventType = "keyup"
      ∨ (Event.mouse "click" true false none).eventType = "mousedown"
      ∨ (Event.mouse "click" true false none).eventType = "mouseup"
      ∨ (Event.mouse "click" true false none).eventType = "click")
    ∧ handleEvent false false true (Event.mouse "click" true false none)
      = if false || !(Event.mouse "click" true false none).modifierKey then forwardedResult
        else droppedResult :=
  ⟨by decide, C3_modifier_gate false false true (Event.mouse "click" true false none) (by decide)⟩

/-- C5: a double click whose resolved item is a directory is forwarded to
the original handler (navigation), with no other effect. -/
theorem C5_dblclick_directory_forwards
    (multiselect acceptFileOnDblClick okButtonPresent : Bool) (e : Event) (item : ListItem)
    (ht : e.eventType = "dblclick")
    (hitem : e.clickedItemOf = some item)
    (hdir : item.type_ = "directory") :
    handleEvent multiselect acceptFileOnDblClick okButtonPresent e = forwardedResult := by
  simp [handleEvent, ht, hitem, clickedItemType, hdir]

/-- Witness for C5 on a concrete double click on a directory. -/
theorem C5_witness :
    ((Event.mouse "dblclick" false false (some (ListItem.mk "directory" []))).eventType
        = "dblclick"
      ∧ (Event.mouse "dblclick" false false
          (some (ListItem.mk "directory" []))).clickedItemOf
        = some (ListItem.mk "directory" [])
      ∧ (ListItem.mk "directory" ([] : List Char)).type_ = "directory")
    ∧ handleEvent true true true
        (Event.mouse "dblclick" false false (some (ListItem.mk "directory" [])))
      = forwardedResult :=
  ⟨⟨by decide, by decide, by decide⟩,
    C5_dblclick_directory_forwards true true true
      (Event.mouse "dblclick" false false (some (ListItem.mk "directory" [])))
      (ListItem.mk "directory" []) (by decide) (by decide) (by decide)⟩

/-- C2: a double click whose resolved item exists and is not a directory
is not forwarded; `preventDefault` and `stopPropagation` are called, and
(given the accept button is in the open dialog's DOM) the accept button is
clicked exactly when `acceptFileOnDblClick` is set.  Moreover
`showBrowseFileDialog` uses `true` for `acceptFileOnDblClick` when the
options object lacks the property. -/
theorem C2_dblclick_file_accepts
    (multiselect acceptFileOnDblClick okButtonPresent : Bool) (e : Event) (item : ListItem)
    (ht : e.eventType = "dblclick")
    (hitem : e.clickedItemOf = some item)
    (hdir : item.type_ ≠ "directory")
    (hok : okButtonPresent = true) :
    (handleEvent multiselect acceptFileOnDblClick okButtonPresent e).forwarded = false
    ∧ (handleEvent multiselect acceptFileOnDblClick okButtonPresent e).preventedDefault = true
    ∧ (handleEvent multiselect acceptFileOnDblClick okButtonPresent e).stoppedPropagation = true
    ∧ ((handleEvent multiselect acceptFileOnDblClick okButtonPresent e).clickedAcceptButton
        = acceptFileOnDblClick)
    ∧ effectiveAcceptFileOnDblClick none = true := by
  subst hok
  simp [handleEvent, ht, hitem, clickedItemType, hdir, effectiveAcceptFileOnDblClick]

/-- Witness for C2 on a concrete double click on a file. -/
theorem C2_witness :
    ((Event.mouse "dblclick" false false (some (ListItem.mk "file" []))).eventType = "dblclick"
      ∧ (Event.mouse "dblclick" false false (some (ListItem.mk "file" []))).clickedItemOf
        = some (ListItem.mk "file" [])
      ∧ (ListItem.mk "file" ([] : List Char)).type_ ≠ "directory"
      ∧ (true : Bool) = true)
    ∧ ((handleEvent false true true
          (Event.mouse "dblclick" false false (some (ListItem.mk "file" [])))).forwarded = false
      ∧ (handleEvent false true true
          (Event.mouse "dblclick" false false
            (some (ListItem.mk "file" [])))).preventedDefault = true
      ∧ (handleEvent false true true
          (Event.mouse "dblclick" false false
            (some (ListItem.mk "file" [])))).stoppedPropagation = true
      ∧ ((handleEvent false true true
          (Event.mouse "dblclick" false false
            (some (ListItem.mk "file" [])))).clickedAcceptButton = true)
      ∧ effectiveAcceptFileOnDblClick none = true) :=
  ⟨⟨by decide, by decide, by decide, by decide⟩,
    C2_dblclick_file_accepts false true true
      (Event.mouse "dblclick" false false (some (ListItem.mk "file" [])))
      (ListItem.mk "file" []) (by decide) (by decide) (by decide) (by decide)⟩

/-- C9: any event whose type is none of the six intercepted types is
forwarded to the original `DirListing.handleEvent` with no other effect,
i.e. the override behaves as the original handler there. -/
theorem C9_other_events_forwarded
    (multiselect acceptFileOnDblClick okButtonPresent : Bool) (e : Event)
    (ht : ¬ (e.eventType = "keydown" ∨ e.eventType = "keyup" ∨ e.eventType = "mousedown"
      ∨ e.eventType = "mouseup" ∨ e.eventType = "click" ∨ e.eventType = "dblclick")) :
    handleEvent multiselect acceptFileOnDblClick okButtonPresent e = forwardedResult := by
  push_neg at ht
  obtain ⟨h1, h2, h3, h4, h5, h6⟩ := ht
  simp [handleEvent, h1, h2, h3, h4, h5, h6]

/-- Witness for C9 on a concrete `scroll` event. -/
theorem C9_witness :
    (¬ ((Event.other "scroll").eventType = "keydown"
      ∨ (Event.other "scroll").eventType = "keyup"
      ∨ (Event.other "scroll").eventType = "mousedown"
      ∨ (Event.other "scroll").eventType = "mouseup"
      ∨ (Event.other "scroll").eventType = "click"
      ∨ (Event.other "scroll").eventType = "dblclick"))
    ∧ handleEvent false false false (Event.other "scroll") = forwardedResult :=
  ⟨by decide, C9_other_events_forwarded false false false (Event.other "scroll") (by decide)⟩

/-- C6: `init` navigates to `startPath` when it is given and `rootPath` is
unset or `startPath` starts with it; performs no navigation when
`startPath` is given but does not start with `rootPath`; and navigates to
`rootPath` when `startPath` is absent and `rootPath` is given. -/
theorem C6_init_navigation (startPath rootPath : Option (List Char)) :
    (truthy startPath = true →
      (truthy rootPath = false
        ∨ (rootPath.getD []).isPrefixOf (startPath.getD []) = true) →
      initNavigation startPath rootPath = some (startPath.getD []))
    ∧ (truthy startPath = true → truthy rootPath = true →
      (rootPath.getD []).isPrefixOf (startPath.getD []) = false →
      initNavigation startPath rootPath = none)
    ∧ (truthy startPath = false → truthy rootPath = true →
      initNavigation startPath rootPath = some (rootPath.getD [])) := by
  refine ⟨?_, ?_, ?_⟩
  · intro hs hor
    rcases hor with h | h <;> simp [initNavigation, hs, h]
  · intro hs hr hp
    simp [initNavigation, hs, hr, hp]
  · intro hs hr
    simp [initNavigation, hs, hr]

/-- Witness for C6: with a start path below the root, `init` navigates to
the start path. -/
theorem C6_witness :
    (truthy (some "/a/b".toList) = true
      ∧ (truthy (some "/a".toList) = false
        ∨ ((some "/a".toList).getD []).isPrefixOf ((some "/a/b".toList).getD []) = true))
    ∧ initNavigation (some "/a/b".toList) (some "/a".toList)
      = some ((some "/a/b".toList).getD []) :=
  ⟨⟨by decide, by decide⟩,
    (C6_init_navigation (some "/a/b".toList) (some "/a".toList)).1 (by decide) (by decide)⟩

/-- C7: with a non-empty `extensions` list, the installed filter accepts
every directory and accepts any other model exactly when a dot followed by
the lowercased last piece of the dot-split name is in `extensions`; with
`extensions` absent or empty, `options.filter` is used, defaulting to an
accept-everything filter. -/
theorem C7_init_filter (o : InitOptions) :
    (∀ exts, o.extensions = some exts → exts ≠ [] →
      ∀ m, initFilterFunction o m = true
        ↔ (m.type_ = "directory" ∨ fileExtensionOf m.name ∈ exts))
    ∧ ((o.extensions = none ∨ o.extensions = some []) →
      ∀ m, initFilterFunction o m
        = (match o.filter with
            | some f => f m
            | none => true)) := by
  constructor
  · intro exts he hne m
    have hl : extensionsTruthy o.extensions = true := by
      simp [extensionsTruthy, he, List.length_pos.mpr hne]
    rw [he] at hl
    by_cases hm : m.type_ = "directory" <;>
      simp [initFilterFunction, hl, he, extensionsFilter, hm]
  · intro hcase m
    have hl : extensionsTruthy o.extensions = false := by
      rcases hcase with h | h <;> simp [extensionsTruthy, h]
    cases hf : o.filter <;> simp [initFilterFunction, hl, hf]

/-- Witness for C7: with extensions `[.csv]`, a file named `data.CSV` is
accepted exactly because its computed extension is listed. -/
theorem C7_witness :
    ((InitOptions.mk (some [".csv".toList]) none none none).extensions
        = some [".csv".toList]
      ∧ ([".csv".toList] : List (List Char)) ≠ [])
    ∧ (initFilterFunction (InitOptions.mk (some [".csv".toList]) none none none)
          (FileModel.mk "file" "data.CSV".toList) = true
        ↔ ((FileModel.mk "file" "data.CSV".toList).type_ = "directory"
          ∨ fileExtensionOf (FileModel.mk "file" "data.CSV".toList).name
              ∈ [".csv".toList])) :=
  ⟨⟨rfl, by decide⟩,
    (C7_init_filter (InitOptions.mk (some [".csv".toList]) none none none)).1
      [".csv".toList] rfl (by decide) (FileModel.mk "file" "data.CSV".toList)⟩

/-- C8: the `.then` callback rewrites the returned paths exactly when
`rootPath` is truthy, the accept button was pressed and the selection is
non-empty; each path then has the first occurrence of `rootPath`
(slash-terminated) removed, and in every other case the result is returned
untouched. -/
theorem C8_result_paths_rewritten (rootPath : Option (List Char)) (result : DialogResult) :
    ((truthy rootPath = true ∧ result.accept = true ∧ result.value ≠ []) →
      (rewriteResult rootPath result).accept = result.accept
      ∧ (rewriteResult rootPath result).value
        = result.value.map (fun v =>
            { v with path := replaceFirst (relativeToPathOf (rootPath.getD [])) [] v.path })
      ∧ ∀ v ∈ result.value,
          (relativeToPathOf (rootPath.getD []) <:+: v.path →
            ∃ a b, a ++ relativeToPathOf (rootPath.getD []) ++ b = v.path
              ∧ replaceFirst (relativeToPathOf (rootPath.getD [])) [] v.path = a ++ b
              ∧ ∀ a' b', a' ++ relativeToPathOf (rootPath.getD []) ++ b' = v.path
                  → a.length ≤ a'.length)
          ∧ (¬ relativeToPathOf (rootPath.getD []) <:+: v.path →
              replaceFirst (relativeToPathOf (rootPath.getD [])) [] v.path = v.path))
    ∧ (¬ (truthy rootPath = true ∧ result.accept = true ∧ result.value ≠ []) →
      rewriteResult rootPath result = result) := by
  constructor
  · rintro ⟨h1, h2, h3⟩
    have hv : result.value.isEmpty = false := by
      simpa [List.isEmpty_iff] using h3
    have hguard : (truthy rootPath && result.accept && !result.value.isEmpty) = true := by
      simp [h1, h2, hv]
    refine ⟨?_, ?_, ?_⟩
    · simp [rewriteResult, hguard]
    · simp [rewriteResult, hguard]
    · intro v _
      constructor
      · intro hinf
        obtain ⟨a, b, hab, hres, hmin⟩ :=
          replaceFirst_first_occurrence (relativeToPathOf (rootPath.getD [])) [] v.path hinf
        exact ⟨a, b, hab, by simpa using hres, hmin⟩
      · intro hninf
        exact replaceFirst_no_occurrence _ _ _ hninf
  · intro hn
    have hguard : (truthy rootPath && result.accept && !result.value.isEmpty) = false := by
      by_contra hcne
      rw [Bool.not_eq_false] at hcne
      simp only [Bool.and_eq_true, Bool.not_eq_true'] at hcne
      have h4 := hcne.2
      refine hn ⟨hcne.1.1, hcne.1.2, ?_⟩
      intro hnil
      rw [hnil] at h4
      simp at h4
    simp [rewriteResult, hguard]

/-- Witness for C8: accepting `/root/a.csv` under root `/root` rewrites
the path. -/
theorem C8_witness :
    (truthy (some "/root".toList) = true
      ∧ (DialogResult.mk true [ListItem.mk "file" "/root/a.csv".toList]).accept = true
      ∧ (DialogResult.mk true [ListItem.mk "file" "/root/a.csv".toList]).value ≠ [])
    ∧ ((rewriteResult (some "/root".toList)
          (DialogResult.mk true [ListItem.mk "file" "/root/a.csv".toList])).accept
        = (DialogResult.mk true [ListItem.mk "file" "/root/a.csv".toList]).accept
      ∧ (rewriteResult (some "/root".toList)
          (DialogResult.mk true [ListItem.mk "file" "/root/a.csv".toList])).value
        = (DialogResult.mk true [ListItem.mk "file" "/root/a.csv".toList]).value.map
            (fun v =>
              { v with path :=
                  replaceFirst (relativeToPathOf ((some "/root".toList).getD [])) [] v.path })
      ∧ ∀ v ∈ (DialogResult.mk true [ListItem.mk "file" "/root/a.csv".toList]).value,
          (relativeToPathOf ((some "/root".toList).getD []) <:+: v.path →
            ∃ a b, a ++ relativeToPathOf ((some "/root".toList).getD []) ++ b = v.path
              ∧ replaceFirst (relativeToPathOf ((some "/root".toList).getD [])) [] v.path
                  = a ++ b
              ∧ ∀ a' b', a' ++ relativeToPathOf ((some "/root".toList).getD []) ++ b' = v.path
                  → a.length ≤ a'.length)
          ∧ (¬ relativeToPathOf ((some "/root".toList).getD []) <:+: v.path →
              replaceFirst (relativeToPathOf ((some "/root".toList).getD [])) [] v.path
                = v.path)) :=
  ⟨⟨by decide, by decide, by decide⟩,
    (C8_result_paths_rewritten (some "/root".toList)
        (DialogResult.mk true [ListItem.mk "file" "/root/a.csv".toList])).1
      ⟨by decide, by decide, by decide⟩⟩

/-- C10: the dialog `showBrowseFileDialog` launches is titled
`Select a file` and has exactly two buttons: a non-accepting cancel button
and an accepting button labelled `Select`, the only accepting one. -/
theorem C10_dialog_configuration :
    showBrowseFileDialogSpec.title = "Select a file"
    ∧ showBrowseFileDialogSpec.buttons = [cancelButton, okButton "Select"]
    ∧ showBrowseFileDialogSpec.buttons.length = 2
    ∧ cancelButton.accept = false
    ∧ (okButton "Select").accept = true
    ∧ (okButton "Select").label = "Select"
    ∧ showBrowseFileDialogSpec.buttons.filter (fun b => b.accept) = [okButton "Select"] := by
  decide

end BrowseFileDialogModel
